import Mathlib

/-!
Verification of the message reconciliation and media reconstruction pipeline
of the live-conversation page (`src/app/live/page.tsx`).

The data model and every operation below are shallow embeddings of the
TypeScript source: JS `undefined`/`null` fields become `Option`, JS string
truthiness (`s` truthy iff `s !== "" && s !== undefined`) is made explicit,
and the React state updates of the two `useEffect` reconciliation hooks are
modelled as a pure `upsert` function on the transcript list.
-/

namespace GeminiLive

/-- A media chunk `{mimeType, data}` carried by a RealtimeInput message
(`GenerativeContentBlob`); `data` is base64 text, the empty string standing
for an absent/empty (JS-falsy) payload. -/
structure MediaChunk where
  mimeType : String
  data : String
deriving DecidableEq, Repr

/-- A content part: optional text and optional inline media
(`Part` of the generative-ai SDK, restricted to the fields the page reads). -/
structure Part where
  text : Option String
  inlineData : Option MediaChunk
deriving DecidableEq, Repr

/-- The three non-null message shapes of `MessageType`
(`RealtimeInputMessage | ClientContentMessage | ServerContentMessage`).
A client message's `turns` is the list of turns, each being its `parts`
list; a server message's `modelTurn` is `none` when the `serverContent`
variant carries no model turn (`turnComplete`/`interrupted`). -/
inductive Msg where
  | realtime (id : String) (mediaChunks : List MediaChunk)
  | client (id : String) (turns : List (List Part))
  | server (id : String) (modelTurn : Option (List Part))
deriving DecidableEq, Repr

/-- The stable reconciliation id carried by every message. -/
def Msg.id : Msg → String
  | .realtime i _ => i
  | .client i _ => i
  | .server i _ => i

/-- `MessageType` including the `null` case. -/
abbrev MessageType := Option Msg

/-- `isClientMessage`: `message !== null && 'clientContent' in message`. -/
def isClientMessage : MessageType → Bool
  | some (.client _ _) => true
  | _ => false

/-- `isRealtimeInputMessage`: `message !== null && 'realtimeInput' in message`. -/
def isRealtimeInputMessage : MessageType → Bool
  | some (.realtime _ _) => true
  | _ => false

/-- `isServerMessage`: `message !== null && 'serverContent' in message`. -/
def isServerMessage : MessageType → Bool
  | some (.server _ _) => true
  | _ => false

/-- `hasModelTurn`: `'modelTurn' in content && content.modelTurn !== null`. -/
def hasModelTurn : Option (List Part) → Bool := fun mt => mt.isSome

/-- JS `m?.id`: `undefined` for a `null` entry, the id otherwise. -/
def idOf : MessageType → Option String
  | none => none
  | some m => some m.id

/-- The transcript update performed by the two reconciliation `useEffect`
hooks (lines 342-378; the bot and user hooks run the identical functional
update). `current` is `currentBotMessage` / `currentUserMessage`: when it is
null the hook body does not fire (transcript unchanged); otherwise, if some
entry's `m?.id` strictly equals the incoming id the list is mapped with the
incoming snapshot substituted at every matching position, else the snapshot
is appended. -/
def upsert (messages : List MessageType) (current : MessageType) : List MessageType :=
  match current with
  | none => messages
  | some cur =>
    if 0 < (messages.filter (fun m => idOf m == some cur.id)).length then
      messages.map (fun m => if idOf m == some cur.id then some cur else m)
    else
      messages ++ [some cur]

/-- `t.find?` by id: the transcript entry carrying id `i`, if any. -/
def entryFor (t : List MessageType) (i : String) : Option MessageType :=
  t.find? (fun m => idOf m == some i)

/-! ### Text extraction (`MessageItem.textComponent`, lines 148-186) -/

/-- What the text component renders: a user bubble with the concatenated
content, or a model bubble with its `loading` flag and content. -/
inductive TextRender where
  | clientBubble (content : String)
  | serverBubble (loading : Bool) (content : String)
deriving DecidableEq, Repr

/-- `parts.map((p) => p.text).join('')`: JS `Array.prototype.join` renders
an `undefined` element as the empty string, so a missing `text` contributes
`""` (the server branch writes this explicitly as `p?.text ?? ''`). -/
def joinTexts (parts : List Part) : String :=
  String.join (parts.map (fun p => p.text.getD ""))

/-- `message.clientContent.turns?.[0]?.parts.map((p) => p.text).join('')`:
`undefined` (`none`) when there is no first turn. -/
def clientContentText (turns : List (List Part)) : Option String :=
  turns.head?.map joinTexts

/-- `message.serverContent.modelTurn.parts.map((p) => p?.text ?? '').join('')`
(lines 167-169). -/
def serverContentText (parts : List Part) : String :=
  joinTexts parts

/-- `const loading = message.serverContent.modelTurn.parts.length === 0`
(line 170). -/
def serverLoading (parts : List Part) : Bool :=
  parts.length == 0

/-- The rendered text component: client branch returns the bubble only when
`content` is truthy (`content ? <Bubble/> : null`); server branch (with a
model turn) returns the bubble when `loading || content` is truthy, carrying
the `loading` flag; everything else yields `null`. -/
def textComponent : MessageType → Option TextRender := fun message =>
  match message with
  | some (.client _ turns) =>
    match clientContentText turns with
    | some content => if content == "" then none else some (.clientBubble content)
    | none => none
  | some (.server _ (some parts)) =>
    let content := serverContentText parts
    let loading := serverLoading parts
    if loading || !(content == "") then some (.serverBubble loading content) else none
  | _ => none

/-! ### Audio reconstruction (`MessageItem.audioComponent`, lines 221-270)

`base64sToArrayBuffer` and `pcmBufferToBlob` live in the repository's vendor
library (`@/vendor/lib/utils`), which is not under `src/`; they are modelled
from the spec below (base64 decode + in-order concatenation; wrap bytes with
the sample rate). -/

/-- Value of a standard base64 alphabet character; `none` for `'='` padding
or any non-alphabet character. -/
def base64Val (c : Char) : Option Nat :=
  if 'A' ≤ c ∧ c ≤ 'Z' then some (c.toNat - 65)
  else if 'a' ≤ c ∧ c ≤ 'z' then some (c.toNat - 97 + 26)
  else if '0' ≤ c ∧ c ≤ '9' then some (c.toNat - 48 + 52)
  else if c = '+' then some 62
  else if c = '/' then some 63
  else none

/-- Decode one 4-character base64 group into 1-3 bytes ('=' padding cuts the
group short). -/
def b64Group (c1 c2 c3 c4 : Char) : List Nat :=
  match base64Val c1, base64Val c2, base64Val c3, base64Val c4 with
  | some v1, some v2, none, _ => [v1 * 4 + v2 / 16]
  | some v1, some v2, some v3, none =>
    [v1 * 4 + v2 / 16, (v2 % 16) * 16 + v3 / 4]
  | some v1, some v2, some v3, some v4 =>
    [v1 * 4 + v2 / 16, (v2 % 16) * 16 + v3 / 4, (v3 % 4) * 64 + v4]
  | _, _, _, _ => []

/-- Decode a base64 character stream, 4 characters at a time. -/
def base64DecodeChars : List Char → List Nat
  | c1 :: c2 :: c3 :: c4 :: rest => b64Group c1 c2 c3 c4 ++ base64DecodeChars rest
  | _ => []

/-- Modelled from the spec: `base64sToArrayBuffer` (vendor `@/vendor/lib/utils`,
not under `src/`) decodes each base64 payload to raw bytes and concatenates
the byte sequences in array order. -/
def base64sToArrayBuffer (base64s : List String) : List Nat :=
  (base64s.map (fun s => base64DecodeChars s.data)).flatten

/-- The playable raw-audio artifact: concatenated PCM payload plus the
declared sample rate. -/
structure AudioBlob where
  payload : List Nat
  rate : Nat
deriving DecidableEq, Repr

/-- Modelled from the spec: `pcmBufferToBlob` (vendor `@/vendor/lib/utils`,
not under `src/`) wraps the concatenated bytes in a minimal single-channel
16-bit raw-audio container carrying the given sample rate. -/
def pcmBufferToBlob (buffer : List Nat) (rate : Nat) : AudioBlob :=
  { payload := buffer, rate := rate }

/-- Chunk/part selection and rate of `audioComponent` (lines 222-234):
`rate` starts at `2400`; a RealtimeInput message sets `rate = 1600` and takes
the `data` of chunks with `c?.mimeType == "audio/pcm;rate=16000" && c?.data`
truthy; a ServerContent message with a model turn takes the `inlineData.data`
of parts with `p.inlineData?.mimeType == "audio/pcm;rate=24000"` and truthy
`p.inlineData?.data`, leaving `rate` at its initial `2400`. -/
def audioSelect : MessageType → List String × Nat := fun message =>
  match message with
  | some (.realtime _ chunks) =>
    (((chunks.filter
        (fun c => c.mimeType == "audio/pcm;rate=16000" && !(c.data == ""))).map
      (fun c => c.data)), 1600)
  | some (.server _ (some parts)) =>
    (((parts.filter (fun p =>
          ((p.inlineData.map (fun d => d.mimeType)).getD "" == "audio/pcm;rate=24000")
            && !((p.inlineData.map (fun d => d.data)).getD "" == ""))).filterMap
        (fun p => p.inlineData.map (fun d => d.data))), 2400)
  | _ => ([], 2400)

/-- The rendered audio component: when the selected chunk list is non-empty
(`if (base64s.length)`), decode + concatenate and wrap with the selected
rate (`pcmBufferToBlob(base64sToArrayBuffer(base64s), rate)`); otherwise
`null`. -/
def audioComponent (message : MessageType) : Option AudioBlob :=
  let sel := audioSelect message
  if 0 < sel.1.length then some (pcmBufferToBlob (base64sToArrayBuffer sel.1) sel.2)
  else none

/-! ### Video reconstruction (`MessageItem.videoComponent`, lines 189-219,
and `VideoPlayer`, lines 82-144) -/

/-- The rendered video component: the data-URL frame list handed to
`VideoPlayer`. -/
structure VideoRender where
  images : List String
deriving DecidableEq, Repr

/-- Frame selection of `videoComponent` (lines 190-195): a RealtimeInput
message contributes `data:image/jpeg;base64, ${c.data}` for every chunk with
`c?.mimeType == "image/jpeg" && c?.data` truthy; every other message shape
contributes nothing. -/
def videoBase64s : MessageType → List String := fun message =>
  match message with
  | some (.realtime _ chunks) =>
    (chunks.filter (fun c => c.mimeType == "image/jpeg" && !(c.data == ""))).map
      (fun c => "data:image/jpeg;base64, " ++ c.data)
  | _ => []

/-- The rendered video component: a `VideoPlayer` bubble when at least one
JPEG frame matched (`if (base64s.length)`), else `null`. -/
def videoComponent (message : MessageType) : Option VideoRender :=
  let base64s := videoBase64s message
  if 0 < base64s.length then some { images := base64s } else none

/-- State of one `VideoPlayer` pipeline instance: the refs and React state of
lines 83-125. `recorderActive` is `recorderRef.current !== null`, `recording`
that the `MediaRecorder` has been started and `stop()` not yet called,
`timerActive` that the `setInterval` timer is still armed, `imgSrc` the last
value assigned to `img.src` (inner `none` = reading past the end of
`images`), `video` that the `onstop` handler has delivered the blob URL. The
canvas raster / drawing of `img.onload` is not tracked: no claim depends on
pixel contents. -/
structure VPState where
  canvasMounted : Bool
  poster : Option String
  recorderActive : Bool
  recording : Bool
  timerActive : Bool
  currentImageIndex : Nat
  imgSrc : Option (Option String)
  video : Bool
deriving DecidableEq, Repr

/-- The freshly mounted component: no poster, no recorder, no timer. -/
def vpIdle : VPState :=
  { canvasMounted := true, poster := none, recorderActive := false,
    recording := false, timerActive := false, currentImageIndex := 0,
    imgSrc := none, video := false }

/-- The `useEffect` body (lines 88-125): guarded by
`canvasRef.current && images.length > 0 && !recorderRef.current`; when it
fires it sets the poster to `images[0]`, creates and starts the recorder,
and arms the interval timer with the frame cursor at 0. -/
def vpInit (images : List String) (s : VPState) : VPState :=
  if s.canvasMounted && decide (0 < images.length) && !s.recorderActive then
    { s with poster := images.head?, recorderActive := true, recording := true,
             timerActive := true, currentImageIndex := 0 }
  else s

/-- One firing of the interval callback (lines 117-123): if the cursor has
passed the end of `images`, call `recorder.stop()` and `clearInterval`;
then (in every firing, including the stopping one) assign
`img.src = images[currentImageIndex++]`. -/
def vpTick (images : List String) (s : VPState) : VPState :=
  if s.timerActive then
    let s1 :=
      if images.length ≤ s.currentImageIndex then
        { s with recording := false, timerActive := false }
      else s
    { s1 with imgSrc := some images[s1.currentImageIndex]?,
              currentImageIndex := s1.currentImageIndex + 1 }
  else s

/-- The asynchronous `recorder.onstop` handler (lines 100-105): once the
stopped recorder flushes, the blob URL is published and
`recorderRef.current` is cleared. -/
def vpOnStop (s : VPState) : VPState :=
  if !s.recording && s.recorderActive then
    { s with video := true, recorderActive := false }
  else s

/-- A full run: initialize on `images`, then let the timer fire `n` times. -/
def vpRun (images : List String) (n : Nat) : VPState :=
  (vpTick images)^[n] (vpInit images vpIdle)

/-! ### Stream merging and first-seen order -/

/-- All interleavings of two streams that preserve each stream's internal
order. -/
def interleavings : List α → List α → List (List α)
  | [], ys => [ys]
  | x :: xs, [] => [x :: xs]
  | x :: xs, y :: ys =>
    (interleavings xs (y :: ys)).map (fun l => x :: l) ++
    (interleavings (x :: xs) ys).map (fun l => y :: l)
termination_by xs ys => xs.length + ys.length

/-- Accumulate the ids of the non-null inputs in first-seen order. -/
def seenStep (acc : List String) (m : MessageType) : List String :=
  match m with
  | none => acc
  | some msg => if msg.id ∈ acc then acc else acc ++ [msg.id]

/-- The distinct ids of the non-null inputs, in the order each id was first
seen. -/
def firstSeen (inputs : List MessageType) : List String :=
  inputs.foldl seenStep []

/-! ### Concrete fixtures used by the witness/counterexample theorems -/

/-- Base64 text decoding to 10 zero bytes. -/
def b64ten : String := "AAAAAAAAAAAAAA=="

/-- Base64 text decoding to 20 zero bytes. -/
def b64twenty : String := "AAAAAAAAAAAAAAAAAAAAAAAAAAA="

/-- Base64 text decoding to 5 zero bytes. -/
def b64five : String := "AAAAAAA="

/-- RealtimeInput message with three 16kHz PCM chunks of 10, 20 and 5 bytes. -/
def audioMsg16 : Msg :=
  .realtime "a1"
    [{ mimeType := "audio/pcm;rate=16000", data := b64ten },
     { mimeType := "audio/pcm;rate=16000", data := b64twenty },
     { mimeType := "audio/pcm;rate=16000", data := b64five }]

/-- ServerContent message whose model turn carries one 24kHz PCM part. -/
def serverAudioMsg : Msg :=
  .server "a2" (some
    [{ text := none,
       inlineData := some { mimeType := "audio/pcm;rate=24000", data := "AAAA" } }])

/-- The four-frame sequence of the video-termination property. -/
def imgs4 : List String := ["f1", "f2", "f3", "f4"]

/-- A `VideoPlayer` state with a running recorder and armed timer. -/
def vpBusy : VPState :=
  { canvasMounted := true, poster := some "f1", recorderActive := true,
    recording := true, timerActive := true, currentImageIndex := 2,
    imgSrc := some (some "f2"), video := false }

/-! ### Helper lemmas -/

lemma length_filter_pos_iff {α : Type _} (p : α → Bool) (l : List α) :
    0 < (l.filter p).length ↔ ∃ a ∈ l, p a = true := by
  rw [List.length_pos]
  simp [Ne, List.filter_eq_nil_iff]

/-- The in-place replacement map of `upsert` preserves the id at every
position of the transcript. -/
lemma replace_map_ids (t : List MessageType) (msg : Msg) :
    (t.map (fun m => if idOf m == some msg.id then some msg else m)).map idOf
      = t.map idOf := by
  rw [List.map_map]
  apply List.map_congr_left
  intro m _
  show idOf (if idOf m == some msg.id then some msg else m) = idOf m
  by_cases h : (idOf m == some msg.id) = true
  · have hm : idOf m = some msg.id := by simpa using h
    rw [if_pos h]
    exact (show idOf (some msg) = some msg.id from rfl).trans hm.symm
  · rw [if_neg h]

/-! ### C1: upsert contract -/

/-- C1: the transcript upsert returns the transcript unchanged on a `null`
message; when an entry with the incoming id already exists, the update is the
in-place map substituting the snapshot exactly at the matching positions — so
the entry keeps its position, nothing is removed, and the per-position id
sequence (hence the order of existing entries) is unchanged; otherwise the
message is appended at the end of the sequence. -/
theorem upsert_spec (t : List MessageType) (msg : Msg) :
    upsert t none = t ∧
    (0 < (t.filter (fun m => idOf m == some msg.id)).length →
      upsert t (some msg) =
        t.map (fun m => if idOf m == some msg.id then some msg else m) ∧
      (upsert t (some msg)).map idOf = t.map idOf) ∧
    (¬ 0 < (t.filter (fun m => idOf m == some msg.id)).length →
      upsert t (some msg) = t ++ [some msg]) := by
  refine ⟨rfl, fun h => ⟨?_, ?_⟩, fun h => ?_⟩
  · simp [upsert, h]
  · rw [show upsert t (some msg)
        = t.map (fun m => if idOf m == some msg.id then some msg else m) from by
      simp [upsert, h]]
    exact replace_map_ids t msg
  · simp [upsert, h]

/-- Witness for C1: a concrete replacement (entry for `"a"` replaced in
place) and a concrete append (unseen id `"c"`). -/
theorem upsert_spec_witness :
    (upsert [some (Msg.client "a" []), some (Msg.realtime "b" [])]
        (some (Msg.server "a" none)) =
      [some (Msg.client "a" []), some (Msg.realtime "b" [])].map
        (fun m => if idOf m == some (Msg.server "a" none).id
                  then some (Msg.server "a" none) else m)) ∧
    (upsert [some (Msg.client "a" []), some (Msg.realtime "b" [])]
        (some (Msg.server "c" none)) =
      [some (Msg.client "a" []), some (Msg.realtime "b" [])] ++
        [some (Msg.server "c" none)]) :=
  ⟨((upsert_spec [some (Msg.client "a" []), some (Msg.realtime "b" [])]
      (Msg.server "a" none)).2.1 (by decide)).1,
   (upsert_spec [some (Msg.client "a" []), some (Msg.realtime "b" [])]
      (Msg.server "c" none)).2.2 (by decide)⟩

/-! ### C2: order-independent merging of the two origin streams -/

/-- C2: merging stream A = [msgA1@id1, msgA2@id1] with stream B = [msgB1@id2]
(distinct ids across origins) in any interleaving that preserves each
stream's internal order yields a transcript whose entry for id1 is msgA2 and
whose entry for id2 is msgB1: last-applied-wins per id, and upserts of
messages with distinct ids commute with respect to the per-id entry. -/
theorem merge_order_independent (id1 id2 : String) (a1 a2 b1 : Msg)
    (h1 : a1.id = id1) (h2 : a2.id = id1) (h3 : b1.id = id2) (hne : id1 ≠ id2)
    (l : List MessageType)
    (hl : l ∈ interleavings [some a1, some a2] [some b1]) :
    entryFor (l.foldl upsert []) id1 = some (some a2) ∧
    entryFor (l.foldl upsert []) id2 = some (some b1) := by
  have e12 : ((some id1 : Option String) == some id2) = false :=
    beq_eq_false_iff_ne.mpr (fun hc => hne (Option.some.inj hc))
  have e21 : ((some id2 : Option String) == some id1) = false :=
    beq_eq_false_iff_ne.mpr (fun hc => hne (Option.some.inj hc).symm)
  have hint : interleavings [some a1, some a2] [some b1] =
      [[some a1, some a2, some b1], [some a1, some b1, some a2],
       [some b1, some a1, some a2]] := by
    simp [interleavings]
  rw [hint] at hl
  simp only [List.mem_cons, List.not_mem_nil, or_false] at hl
  have ne21 : id2 ≠ id1 := fun hc => hne hc.symm
  rcases hl with rfl | rfl | rfl <;>
    simp [upsert, entryFor, idOf, h1, h2, h3, e12, e21, hne, ne21,
      List.filter, List.find?]

/-- Witness for C2: concrete messages and the interleaving A1, B1, A2. -/
theorem merge_order_independent_witness :
    entryFor ([some (Msg.client "id1" []), some (Msg.realtime "id2" []),
               some (Msg.server "id1" none)].foldl upsert []) "id1"
        = some (some (Msg.server "id1" none)) ∧
    entryFor ([some (Msg.client "id1" []), some (Msg.realtime "id2" []),
               some (Msg.server "id1" none)].foldl upsert []) "id2"
        = some (some (Msg.realtime "id2" [])) :=
  merge_order_independent "id1" "id2" (Msg.client "id1" [])
    (Msg.server "id1" none) (Msg.realtime "id2" []) rfl rfl rfl (by decide)
    [some (Msg.client "id1" []), some (Msg.realtime "id2" []),
     some (Msg.server "id1" none)]
    (by simp [interleavings])

/-! ### C3: id uniqueness and first-seen order -/

/-- Folding `upsert` keeps the per-position id sequence equal to the
first-seen accumulator: replacement preserves ids, append extends them. -/
lemma foldl_upsert_ids (inputs : List MessageType) :
    ∀ (t : List MessageType) (acc : List String),
      t.map idOf = acc.map some →
      (inputs.foldl upsert t).map idOf = (inputs.foldl seenStep acc).map some := by
  induction inputs with
  | nil => intro t acc h; simpa using h
  | cons m rest ih =>
    intro t acc h
    cases m with
    | none => simpa [upsert, seenStep] using ih t acc h
    | some msg =>
      simp only [List.foldl_cons]
      by_cases hmem : msg.id ∈ acc
      · have hsome : some msg.id ∈ t.map idOf := by
          rw [h]; exact List.mem_map_of_mem some hmem
        have hfind : 0 < (t.filter (fun m => idOf m == some msg.id)).length := by
          rw [length_filter_pos_iff]
          rcases List.mem_map.mp hsome with ⟨a, ha, hai⟩
          exact ⟨a, ha, by simp [hai]⟩
        have hids : (upsert t (some msg)).map idOf = t.map idOf := by
          rw [show upsert t (some msg)
              = t.map (fun m => if idOf m == some msg.id then some msg else m) from by
            simp [upsert, hfind]]
          exact replace_map_ids t msg
        rw [show seenStep acc (some msg) = acc from by simp [seenStep, hmem]]
        exact ih _ acc (hids.trans h)
      · have hfind : ¬ 0 < (t.filter (fun m => idOf m == some msg.id)).length := by
          rw [length_filter_pos_iff]
          rintro ⟨a, ha, hai⟩
          have hai' : idOf a = some msg.id := by simpa using hai
          have : some msg.id ∈ acc.map some := by
            rw [← h]; exact List.mem_map.mpr ⟨a, ha, hai'⟩
          rcases List.mem_map.mp this with ⟨x, hx, hxe⟩
          cases Option.some.inj hxe
          exact hmem hx
        rw [show upsert t (some msg) = t ++ [some msg] from by simp [upsert, hfind],
          show seenStep acc (some msg) = acc ++ [msg.id] from by simp [seenStep, hmem]]
        exact ih _ _ (by simp [h, idOf])

/-- The first-seen accumulator never records an id twice. -/
lemma foldl_seenStep_nodup (inputs : List MessageType) :
    ∀ acc : List String, acc.Nodup → (inputs.foldl seenStep acc).Nodup := by
  induction inputs with
  | nil => intro acc h; simpa using h
  | cons m rest ih =>
    intro acc h
    cases m with
    | none => simpa [seenStep] using ih acc h
    | some msg =>
      by_cases hmem : msg.id ∈ acc
      · simpa [seenStep, hmem] using ih acc h
      · simp only [List.foldl_cons]
        rw [show seenStep acc (some msg) = acc ++ [msg.id] from by simp [seenStep, hmem]]
        refine ih _ ?_
        simp [List.nodup_append, h, List.disjoint_singleton, hmem]

/-- An id is recorded by the first-seen fold exactly when it already is in
the accumulator or some non-null input carries it. -/
lemma mem_foldl_seenStep (inputs : List MessageType) :
    ∀ (acc : List String) (i : String),
      i ∈ inputs.foldl seenStep acc ↔ i ∈ acc ∨ ∃ m ∈ inputs, idOf m = some i := by
  induction inputs with
  | nil => simp
  | cons m rest ih =>
    intro acc i
    cases m with
    | none =>
      simp only [List.foldl_cons, seenStep]
      rw [ih]
      constructor
      · rintro (h | ⟨a, ha, hai⟩)
        · exact Or.inl h
        · exact Or.inr ⟨a, List.mem_cons_of_mem _ ha, hai⟩
      · rintro (h | ⟨a, ha, hai⟩)
        · exact Or.inl h
        · rcases List.mem_cons.mp ha with rfl | ha'
          · simp [idOf] at hai
          · exact Or.inr ⟨a, ha', hai⟩
    | some msg =>
      simp only [List.foldl_cons]
      by_cases hmem : msg.id ∈ acc
      · rw [show seenStep acc (some msg) = acc from by simp [seenStep, hmem], ih]
        constructor
        · rintro (h | ⟨a, ha, hai⟩)
          · exact Or.inl h
          · exact Or.inr ⟨a, List.mem_cons_of_mem _ ha, hai⟩
        · rintro (h | ⟨a, ha, hai⟩)
          · exact Or.inl h
          · rcases List.mem_cons.mp ha with rfl | ha'
            · have hieq : msg.id = i := by simpa [idOf] using hai
              exact Or.inl (hieq ▸ hmem)
            · exact Or.inr ⟨a, ha', hai⟩
      · rw [show seenStep acc (some msg) = acc ++ [msg.id] from by
            simp [seenStep, hmem], ih]
        simp only [List.mem_append, List.mem_singleton]
        constructor
        · rintro ((h | h) | ⟨a, ha, hai⟩)
          · exact Or.inl h
          · exact Or.inr ⟨some msg, List.mem_cons_self _ _, by simp [idOf, h]⟩
          · exact Or.inr ⟨a, List.mem_cons_of_mem _ ha, hai⟩
        · rintro (h | ⟨a, ha, hai⟩)
          · exact Or.inl (Or.inl h)
          · rcases List.mem_cons.mp ha with rfl | ha'
            · have hieq : msg.id = i := by simpa [idOf] using hai
              exact Or.inl (Or.inr hieq.symm)
            · exact Or.inr ⟨a, ha', hai⟩

/-- C3: starting from the empty transcript, any finite sequence of upserts
yields a transcript whose per-position id sequence is exactly the list of
distinct ids of the non-null inputs in first-seen order: one entry per
distinct id (the id sequence has no duplicates), positioned in first-seen
order, and an id appears iff some non-null input carries it. -/
theorem transcript_id_uniqueness (inputs : List MessageType) :
    (inputs.foldl upsert []).map idOf = (firstSeen inputs).map some ∧
    (firstSeen inputs).Nodup ∧
    (∀ i : String, i ∈ firstSeen inputs ↔ ∃ m ∈ inputs, idOf m = some i) := by
  refine ⟨foldl_upsert_ids inputs [] [] (by simp), ?_, ?_⟩
  · exact foldl_seenStep_nodup inputs [] (by simp)
  · intro i
    rw [firstSeen, mem_foldl_seenStep inputs [] i]
    simp

/-! ### C4: audio round-trip and the sample-rate slip -/

/-- C4 (code-bug evidence): at the claim's input — a RealtimeInput message
with three `audio/pcm;rate=16000` chunks decoding to 10, 20 and 5 bytes —
the reconstructed payload is the 35-byte in-order concatenation exactly as
claimed, but the emitted sample rate is 1600, not 16000: the source sets
`rate = 1600` (and the ServerContent default `2400`) at lines 223-225,
dropping a zero relative to the MIME types `audio/pcm;rate=16000` /
`audio/pcm;rate=24000` it filters on in the very same lines. The second
conjunct shows the ServerContent model-turn side emitting 2400, not 24000. -/
theorem audio_rate_code_bug :
    (audioComponent (some audioMsg16)).map (fun b => (b.payload.length, b.rate))
        = some (35, 1600) ∧
    (audioComponent (some serverAudioMsg)).map (fun b => b.rate) = some 2400 := by
  decide

/-! ### C5: pending vs empty on ServerContent -/

/-- C5: a ServerContent model turn with an empty parts array yields the
distinct pending state — the component renders the loading bubble, not plain
empty text — while a model turn containing exactly one part with `text: ""`
extracts the empty string with the loading flag false: the empty string, not
the pending state. -/
theorem server_pending_vs_empty (id : String) :
    textComponent (some (.server id (some []))) = some (.serverBubble true "") ∧
    serverLoading [] = true ∧
    serverContentText [{ text := some "", inlineData := none }] = "" ∧
    serverLoading [{ text := some "", inlineData := none }] = false := by
  exact ⟨rfl, rfl, rfl, rfl⟩

/-! ### C6: text extraction on ClientContent -/

/-- C6 counterexample: for the ClientContent message whose single turn holds
one part with `text: ""`, the extracted concatenation is the empty string,
but the component renders `null` (`content ? <Bubble/> : null` treats the
empty string as falsy) — not the claimed "valid empty string, rendered as
empty, not null". -/
theorem client_empty_renders_null :
    clientContentText [[{ text := some "", inlineData := none }]] = some "" ∧
    textComponent
        (some (.client "u1" [[{ text := some "", inlineData := none }]])) = none := by
  exact ⟨rfl, rfl⟩

/-- C6 amended: for every ClientContent message with a first turn, the
extracted text equals the in-order concatenation of the text field of every
part of that first turn; a non-empty concatenation is rendered as the
bubble's content, but the empty concatenation renders `null` (no bubble),
not an empty rendering — and with no first turn the component also renders
`null`. -/
theorem client_text_extraction (id : String) (t : List Part)
    (rest : List (List Part)) :
    clientContentText (t :: rest) = some (joinTexts t) ∧
    textComponent (some (.client id (t :: rest))) =
      (if joinTexts t == "" then none else some (.clientBubble (joinTexts t))) ∧
    textComponent (some (.client id [])) = none := by
  exact ⟨rfl, rfl, rfl⟩

/-! ### C7: video pipeline termination -/

/-- C7 counterexample: with the four-frame sequence, after exactly 4 timer
ticks the pipeline has NOT reached the stop-and-finalize transition — the
recorder is still recording and the interval timer still armed (the 4th tick
drew the last frame and only advanced the cursor to 4; the bounds check runs
at the start of the next tick). -/
theorem video_not_stopped_after_four_ticks :
    (vpRun imgs4 4).recording = true ∧ (vpRun imgs4 4).timerActive = true ∧
    (vpRun imgs4 4).currentImageIndex = 4 := by
  decide

/-- C7 amended: with a frame sequence of length 4 (`frameRate=10`,
`intervalMs=2000` only pace the encoder and the tick period), the pipeline
reaches the stop-and-finalize transition on the 5th timer tick — one tick
after the 4 frame-drawing ticks, when the cursor-exhaustion check fires —
not after exactly 4; the asynchronous `onstop` then completes the artifact,
and the `posterFrame` is available from initialization onward (hence from
the first tick onward). -/
theorem video_termination_amended :
    (vpRun imgs4 4).recording = true ∧
    (vpRun imgs4 5).recording = false ∧
    (vpRun imgs4 5).timerActive = false ∧
    (vpOnStop (vpRun imgs4 5)).video = true ∧
    (vpInit imgs4 vpIdle).poster = some "f1" ∧
    (∀ n : Nat, (vpRun imgs4 n).poster = some "f1") := by
  refine ⟨by decide, by decide, by decide, by decide, by decide, ?_⟩
  have hstep : ∀ s : VPState, (vpTick imgs4 s).poster = s.poster := by
    intro s
    simp only [vpTick]
    split
    · split <;> rfl
    · rfl
  intro n
  induction n with
  | zero => decide
  | succ k ihk =>
    have hiter : vpRun imgs4 (k + 1) = vpTick imgs4 (vpRun imgs4 k) :=
      Function.iterate_succ_apply' _ _ _
    rw [hiter, hstep, ihk]

/-! ### C8: single active pipeline instance per message -/

/-- C8: while a recorder instance is running for a message's `VideoPlayer`
(`recorderRef.current` non-null), re-running the reconstruction effect — for
instance from an unrelated re-render delivering the same frame sequence —
changes nothing at all: the `!recorderRef.current` guard makes
re-initializing the timer or encoder impossible until the running instance
has completed (`onstop` clears the ref). -/
theorem vp_single_instance (images : List String) (s : VPState)
    (h : s.recorderActive = true) : vpInit images s = s := by
  simp [vpInit, h]

/-- Witness for C8: re-triggering on a concretely busy pipeline state is a
no-op. -/
theorem vp_single_instance_witness : vpInit ["g1"] vpBusy = vpBusy :=
  vp_single_instance ["g1"] vpBusy rfl

/-! ### C9: no-artifact cases return null silently -/

/-- C9: ClientContent messages produce no audio and no video artifact; a
RealtimeInput message with an empty chunk list, and more generally one whose
chunks all have empty `data` or a MIME type that is neither the 16kHz PCM
audio type nor `image/jpeg`, likewise yields `null` from both
reconstructions — no artifact and no error (the functions are total). -/
theorem no_artifact_cases :
    (∀ (id : String) (turns : List (List Part)),
      audioComponent (some (.client id turns)) = none ∧
      videoComponent (some (.client id turns)) = none) ∧
    (∀ id : String,
      audioComponent (some (.realtime id [])) = none ∧
      videoComponent (some (.realtime id [])) = none) ∧
    (∀ (id : String) (chunks : List MediaChunk),
      (∀ c ∈ chunks, c.data = "" ∨
        (c.mimeType ≠ "audio/pcm;rate=16000" ∧ c.mimeType ≠ "image/jpeg")) →
      audioComponent (some (.realtime id chunks)) = none ∧
      videoComponent (some (.realtime id chunks)) = none) := by
  refine ⟨fun id turns => ⟨rfl, rfl⟩, fun id => ⟨rfl, rfl⟩,
    fun id chunks h => ⟨?_, ?_⟩⟩
  · have hnil : chunks.filter
        (fun c => c.mimeType == "audio/pcm;rate=16000" && !(c.data == "")) = [] := by
      rw [List.filter_eq_nil_iff]
      intro c hc
      rcases h c hc with hd | ⟨hm, _⟩
      · simp [hd]
      · simp [hm]
    simp [audioComponent, audioSelect, hnil]
  · have hnil : chunks.filter
        (fun c => c.mimeType == "image/jpeg" && !(c.data == "")) = [] := by
      rw [List.filter_eq_nil_iff]
      intro c hc
      rcases h c hc with hd | ⟨_, hm⟩
      · simp [hd]
      · simp [hm]
    simp [videoComponent, videoBase64s, hnil]

/-- Witness for C9: a chunk list mixing an empty-data PCM chunk and a
non-empty chunk of unrecognized MIME type yields no artifact from either
reconstruction. -/
theorem no_artifact_cases_witness :
    audioComponent (some (.realtime "r1"
      [{ mimeType := "audio/pcm;rate=16000", data := "" },
       { mimeType := "text/plain", data := "QUJD" }])) = none ∧
    videoComponent (some (.realtime "r1"
      [{ mimeType := "audio/pcm;rate=16000", data := "" },
       { mimeType := "text/plain", data := "QUJD" }])) = none :=
  no_artifact_cases.2.2 "r1"
    [{ mimeType := "audio/pcm;rate=16000", data := "" },
     { mimeType := "text/plain", data := "QUJD" }] (by decide)

/-! ### C10: the null message is inert everywhere -/

/-- C10: on the `null` message every variant classifier returns `false`, and
every derived view — extracted text, audio artifact, video artifact — is
`null`; all of these are total functions (mirroring the `message !== null`
guards of the source), so none of them can throw on `null`. -/
theorem null_message_inert :
    isClientMessage none = false ∧ isRealtimeInputMessage none = false ∧
    isServerMessage none = false ∧ textComponent none = none ∧
    audioComponent none = none ∧ videoComponent none = none := by
  decide

end GeminiLive
